import Mathlib

/-!
Verification of the pubmed_fetcher repository against its specification.

Strings are modelled as `List Char`. Python regular-expression searching is
modelled by hand-written matchers that reproduce the leftmost-search,
greedy-with-backtracking semantics of the three patterns the source compiles.
The repository holds several near-duplicate pipeline variants; the relevant
ones are embedded separately and named after their source file:
  - `identify_non_academic_authors`, `extract_email`, `fetch_papers_normalize`,
    `fetch_papers_build_row`, `fp_save_to_csv` from
    src/src/pubmed_fetcher/fetch_papers.py (identical classifier and
    extractor code also appears in src/src/pubmed_fetcher/utils.py,
    together with `validate_csv`);
  - `fetcher_identify_non_academic_authors`, `fetcher_extract_email`,
    `fetcher_normalize`, `fetcher_build_row`, `fetcher_save_to_csv`,
    `extract_corresponding_author_email` from
    src/src/pubmed_fetcher/fetcher.py (this file writes its two regexes as
    raw strings containing a doubled backslash, so they demand a literal
    backslash character in the text);
  - `filter_keeps` from src/pubmed_fetcher/fetcher.py.
Definitions whose doc comment starts with "Modelled from the spec" follow the
specification text instead and exist only to be compared with the code.
-/

/-- ASCII lower-casing of one character, as Python str.lower does on ASCII. -/
def lowerChar (c : Char) : Char :=
  if 65 ≤ c.toNat ∧ c.toNat ≤ 90 then Char.ofNat (c.toNat + 32) else c

/-- ASCII lower-casing of a string (Python str.lower on ASCII text). -/
def lowerL (s : List Char) : List Char := s.map lowerChar

/-- Boolean test that the first list is an initial segment of the second. -/
def startsWithL : List Char → List Char → Bool
  | [], _ => true
  | _ :: _, [] => false
  | a :: as, b :: bs => a == b && startsWithL as bs

/-- Python substring containment `needle in hay`. -/
def occursIn (needle : List Char) : List Char → Bool
  | [] => needle.isEmpty
  | c :: t => startsWithL needle (c :: t) || occursIn needle t

/-- Character class of the regex local part [a-zA-Z0-9._%+-]. -/
def isLocalChar (c : Char) : Bool :=
  c.isAlpha || c.isDigit || c == '.' || c == '_' || c == '%' || c == '+' || c == '-'

/-- Character class of the regex domain part [a-zA-Z0-9.-]. -/
def isDomChar (c : Char) : Bool :=
  c.isAlpha || c.isDigit || c == '.' || c == '-'

/-- All decompositions dom = b ++ dot ++ rest around a dot character, in order of
growing b; used to model backtracking of the greedy domain quantifier. -/
def dotCands : List Char → List (List Char × List Char)
  | [] => []
  | c :: rest =>
    (if c = '.' then [(([] : List Char), rest)] else []) ++
      (dotCands rest).map (fun p => (c :: p.1, p.2))

/-- Given the maximal domain-character run after the at sign, the longest split
dom = b ++ dot ++ ext with b nonempty and at least two letters after the dot;
this is the split the Python engine commits to. -/
def emailTail (dom : List Char) : Option (List Char) :=
  let cands := (dotCands dom).filter
    (fun p => !p.1.isEmpty && 2 ≤ (p.2.takeWhile Char.isAlpha).length)
  match cands.getLast? with
  | some (b, rest) => some (b ++ '.' :: rest.takeWhile Char.isAlpha)
  | none => none

/-- Match of the correctly written email pattern anchored at the head of s. -/
def matchEmailAt (s : List Char) : Option (List Char) :=
  let loc := s.takeWhile isLocalChar
  if loc.isEmpty then none else
  match s.drop loc.length with
  | '@' :: rest =>
    let dom := rest.takeWhile isDomChar
    match emailTail dom with
    | some t => some (loc ++ '@' :: t)
    | none => none
  | _ => none

/-- re.search of the correctly written email pattern: first position at which
the pattern matches, as in utils.py and fetch_papers.py line 72. -/
def searchEmail : List Char → Option (List Char)
  | [] => none
  | c :: t =>
    match matchEmailAt (c :: t) with
    | some m => some m
    | none => searchEmail t

/-- extract_email of src/src/pubmed_fetcher/fetch_papers.py lines 202-206 (and
utils.py lines 71-75): the matched text, or the empty string when none. -/
def extract_email (s : List Char) : List Char := (searchEmail s).getD []

/-- One of the five alternatives com, net, org, co, biz occurs here (tried as a
plain prefix, no anchor, exactly as the unanchored Python group matches). -/
def tldAt (rest : List Char) : Bool :=
  startsWithL "com".toList rest || startsWithL "net".toList rest ||
  startsWithL "org".toList rest || startsWithL "co".toList rest ||
  startsWithL "biz".toList rest

/-- re.search of the commercial-domain pattern of utils.py line 81 and
fetch_papers.py line 212 (at sign, domain run, dot, one of five extensions). -/
def searchCompanyPat : List Char → Bool
  | [] => false
  | '@' :: rest =>
    (let dom := rest.takeWhile isDomChar
     (dotCands dom).any (fun p => !p.1.isEmpty && tldAt p.2)) || searchCompanyPat rest
  | _ :: t => searchCompanyPat t

/-- Match, anchored at the head of s, of the email pattern as written in
src/src/pubmed_fetcher/fetcher.py lines 88 and 94: the raw string contains a
doubled backslash, so the regex demands a literal backslash character followed
by one arbitrary non-newline character before the final letter run. -/
def matchEmailBrokenAt (s : List Char) : Option (List Char) :=
  let loc := s.takeWhile isLocalChar
  if loc.isEmpty then none else
  match s.drop loc.length with
  | '@' :: rest =>
    let dom := rest.takeWhile isDomChar
    if dom.isEmpty then none else
    match rest.drop dom.length with
    | '\\' :: a :: r3 =>
      if a = '\n' then none else
      let ext := r3.takeWhile Char.isAlpha
      if 2 ≤ ext.length then some (loc ++ '@' :: dom ++ '\\' :: a :: ext) else none
    | _ => none
  | _ => none

/-- re.search of the backslash-demanding email pattern of fetcher.py. -/
def searchEmailBroken : List Char → Option (List Char)
  | [] => none
  | c :: t =>
    match matchEmailBrokenAt (c :: t) with
    | some m => some m
    | none => searchEmailBroken t

/-- extract_email of src/src/pubmed_fetcher/fetcher.py lines 86-90. -/
def fetcher_extract_email (s : List Char) : List Char := (searchEmailBroken s).getD []

/-- re.search of the commercial-domain pattern as written in
src/src/pubmed_fetcher/fetcher.py line 105, which likewise demands a literal
backslash and an arbitrary character before the extension alternatives. -/
def searchCompanyBroken : List Char → Bool
  | [] => false
  | '@' :: rest =>
    (let dom := rest.takeWhile isDomChar
     !dom.isEmpty &&
       (match rest.drop dom.length with
        | '\\' :: a :: r3 => a != '\n' && tldAt r3
        | _ => false)) || searchCompanyBroken rest
  | _ :: t => searchCompanyBroken t

/-- An author record after normalization: name, affiliation text and the email
extracted from the affiliation text. -/
structure Author where
  name : List Char
  affiliation : List Char
  email : List Char
deriving DecidableEq

/-- company_keywords of src/src/pubmed_fetcher/utils.py line 80 and
fetch_papers.py line 211 (matched case-sensitively by the in operator). -/
def company_keywords : List (List Char) :=
  ["Inc", "Ltd", "LLC", "Corporation", "Pharma", "Biotech", "Company"].map String.toList

/-- The loop condition of identify_non_academic_authors in utils.py lines 83-85
and fetch_papers.py lines 214-216: a company keyword occurs in the affiliation,
or the commercial-domain pattern matches the email. -/
def utils_is_non_academic (a : Author) : Bool :=
  company_keywords.any (fun k => occursIn k a.affiliation) || searchCompanyPat a.email

/-- identify_non_academic_authors of utils.py lines 77-87 and fetch_papers.py
lines 208-218: the authors satisfying the condition, in original order. -/
def identify_non_academic_authors : List Author → List Author
  | [] => []
  | a :: t =>
    if utils_is_non_academic a then a :: identify_non_academic_authors t
    else identify_non_academic_authors t

/-- company_keywords of src/src/pubmed_fetcher/fetcher.py line 103. -/
def fetcher_company_keywords : List (List Char) :=
  ["Inc", "Ltd", "LLC", "Corporation", "Pharma", "Biotech", "Company",
   "Genentech", "Pfizer", "Novartis", "Roche", "AstraZeneca", "Merck"].map String.toList

/-- academic_keywords of src/src/pubmed_fetcher/fetcher.py line 104. -/
def fetcher_academic_keywords : List (List Char) :=
  ["University", "Institute", "College", "Hospital", "Medical School"].map String.toList

/-- The comprehension condition of identify_non_academic_authors in
src/src/pubmed_fetcher/fetcher.py line 107: (a company keyword occurs and no
academic keyword occurs) or the email matches the (backslash-demanding)
commercial pattern. -/
def fetcher_is_non_academic (a : Author) : Bool :=
  (fetcher_company_keywords.any (fun k => occursIn k a.affiliation) &&
    !(fetcher_academic_keywords.any (fun k => occursIn k a.affiliation))) ||
  searchCompanyBroken a.email

/-- identify_non_academic_authors of src/src/pubmed_fetcher/fetcher.py
lines 101-107 (a list comprehension, hence an order-preserving filter). -/
def fetcher_identify_non_academic_authors (authors : List Author) : List Author :=
  authors.filter fetcher_is_non_academic

/-- academic_keywords of src/pubmed_fetcher/fetcher.py line 67. -/
def summary_academic_keywords : List (List Char) :=
  ["university", "college", "institute", "research center", "lab"].map String.toList

/-- The per-author keep decision of filter_non_academic_authors in
src/pubmed_fetcher/fetcher.py lines 68-76: the affiliation is lower-cased, the
author is skipped when an academic keyword occurs in it, and kept when the
lower-cased affiliation is non-empty. -/
def filter_keeps (affiliation : List Char) : Bool :=
  let aff := lowerL affiliation
  !(summary_academic_keywords.any (fun k => occursIn k aff)) && !aff.isEmpty

/-- A raw author element of the fetched XML: each child element is either
present with its text or absent (ElementTree find returning None). -/
structure RawAuthor where
  foreName : Option (List Char)
  lastName : Option (List Char)
  affiliation : Option (List Char)
deriving DecidableEq

/-- A raw PubmedArticle element: PMID, ArticleTitle and PubDate/Year children
each present or absent, plus the Author elements in document order. -/
structure RawArticle where
  pmid : Option (List Char)
  title : Option (List Char)
  pubYear : Option (List Char)
  authors : List RawAuthor
deriving DecidableEq

/-- A normalized article. -/
structure Article where
  pmid : List Char
  title : List Char
  pubDate : List Char
  authors : List Author
deriving DecidableEq

/-- Per-author normalization of fetch_papers.py lines 174-184: ForeName and
LastName joined when both present, Unknown otherwise; affiliation text or
empty; email extracted from the affiliation text by the working pattern. -/
def fp_normalize_author (a : RawAuthor) : Author :=
  { name := match a.foreName, a.lastName with
      | some f, some l => f ++ ' ' :: l
      | _, _ => "Unknown".toList,
    affiliation := a.affiliation.getD [],
    email := extract_email (a.affiliation.getD []) }

/-- Per-author normalization of src/src/pubmed_fetcher/fetcher.py lines 56-66;
identical except that the email extraction uses the backslash-demanding
pattern of that file. -/
def fetcher_normalize_author (a : RawAuthor) : Author :=
  { name := match a.foreName, a.lastName with
      | some f, some l => f ++ ' ' :: l
      | _, _ => "Unknown".toList,
    affiliation := a.affiliation.getD [],
    email := fetcher_extract_email (a.affiliation.getD []) }

/-- The record-normalization part of fetch_paper_details in
src/src/pubmed_fetcher/fetcher.py lines 47-66: every missing element degrades
to a sentinel, so the function is total. -/
def fetcher_normalize (r : RawArticle) : Article :=
  { pmid := r.pmid.getD "N/A".toList,
    title := r.title.getD "N/A".toList,
    pubDate := r.pubYear.getD "N/A".toList,
    authors := r.authors.map fetcher_normalize_author }

/-- The record-normalization part of fetch_paper_details in fetch_papers.py
lines 168-184 (same code in utils.py lines 37-53): the PMID and ArticleTitle
elements are dereferenced without a None check, so a missing element raises
AttributeError; only PubDate/Year is guarded. -/
def fetch_papers_normalize (r : RawArticle) : Except (List Char) Article :=
  match r.pmid with
  | none => .error "AttributeError".toList
  | some pmid =>
    match r.title with
    | none => .error "AttributeError".toList
    | some title =>
      .ok { pmid := pmid, title := title,
            pubDate := r.pubYear.getD "N/A".toList,
            authors := r.authors.map fp_normalize_author }

/-- One output row. companyAffiliationsArg holds the list the source passes to
the Python set constructor before joining; the iteration order of that set is
not determined by the program text and is therefore not modelled. -/
structure Row where
  pubmedId : List Char
  title : List Char
  pubDate : List Char
  nonAcademicNames : List Char
  companyAffiliationsArg : List (List Char)
  correspondingEmail : List Char
deriving DecidableEq

/-- The AffiliationInfo/Affiliation texts of an article in document order,
as iterated by article.findall in fetcher.py line 95. -/
def article_affiliations (r : RawArticle) : List (List Char) :=
  r.authors.filterMap (fun a => a.affiliation)

/-- extract_corresponding_author_email of src/src/pubmed_fetcher/fetcher.py
lines 92-99: the first match of the (backslash-demanding) email pattern over
all affiliation texts of the article, empty when none matches. -/
def extract_corresponding_author_email : List (List Char) → List Char
  | [] => []
  | aff :: t =>
    match searchEmailBroken aff with
    | some m => m
    | none => extract_corresponding_author_email t

/-- The per-article row construction of fetch_paper_details in
src/src/pubmed_fetcher/fetcher.py lines 68-82: articles with no non-academic
author are skipped. -/
def fetcher_build_row (r : RawArticle) : Option Row :=
  let art := fetcher_normalize r
  let nonAcad := fetcher_identify_non_academic_authors art.authors
  if nonAcad.isEmpty then none
  else some
    { pubmedId := art.pmid, title := art.title, pubDate := art.pubDate,
      nonAcademicNames := List.intercalate ", ".toList (nonAcad.map (fun a => a.name)),
      companyAffiliationsArg := nonAcad.map (fun a => a.affiliation),
      correspondingEmail := extract_corresponding_author_email (article_affiliations r) }

/-- The generator expression of fetch_papers.py line 189: the first truthy
email among the given authors, empty string default. -/
def firstTruthyEmail : List Author → List Char
  | [] => []
  | a :: t => if a.email.isEmpty then firstTruthyEmail t else a.email

/-- The per-article row construction of fetch_paper_details in fetch_papers.py
lines 168-198: a row is appended for every article, whether or not any author
is non-academic. -/
def fetch_papers_build_row (r : RawArticle) : Except (List Char) Row :=
  match fetch_papers_normalize r with
  | .error e => .error e
  | .ok art =>
    let nonAcad := identify_non_academic_authors art.authors
    .ok { pubmedId := art.pmid, title := art.title, pubDate := art.pubDate,
          nonAcademicNames := List.intercalate ", ".toList (nonAcad.map (fun a => a.name)),
          companyAffiliationsArg := nonAcad.map (fun a => a.affiliation),
          correspondingEmail := firstTruthyEmail nonAcad }

/-- The control flow of save_to_csv in fetch_papers.py lines 220-225: the
header is taken from papers[0], so an empty list raises IndexError before
anything is written; the file I/O itself is outside the modelled core. -/
def fp_save_to_csv (papers : List Row) : Except (List Char) (List Row) :=
  match papers with
  | [] => .error "IndexError".toList
  | ps => .ok ps

/-- The control flow of save_to_csv in src/src/pubmed_fetcher/fetcher.py
lines 109-122: an empty list prints a message and returns normally. -/
def fetcher_save_to_csv (papers : List Row) : Except (List Char) (Option (List Row)) :=
  if papers.isEmpty then .ok none else .ok (some papers)

/-- expected_fields of src/src/pubmed_fetcher/utils.py line 98. -/
def expected_fields : List (List Char) :=
  ["PubmedID", "Title", "Publication Date", "Non-academic Author(s)",
   "Company Affiliation(s)", "Corresponding Author Email"].map String.toList

/-- validate_csv of src/src/pubmed_fetcher/utils.py lines 96-116, on a parsed
file (header row and data rows): the header must equal the six expected field
names and every field of every row must be truthy, i.e. non-empty. -/
def validate_csv (header : List (List Char)) (rows : List (List (List Char))) : Bool :=
  if header = expected_fields then rows.all (fun row => row.all (fun f => !f.isEmpty))
  else false

/-- Modelled from the spec: the ACADEMIC_KEYWORDS list of section 4.2. -/
def spec_academic_keywords : List (List Char) :=
  ["university", "college", "institute", "research center", "lab",
   "hospital", "medical school"].map String.toList

/-- Modelled from the spec: the COMPANY_KEYWORDS list of section 4.2 together
with its named pharmaceutical companies. -/
def spec_company_keywords : List (List Char) :=
  ["inc", "ltd", "llc", "corporation", "pharma", "biotech", "company",
   "genentech", "pfizer", "novartis", "roche", "astrazeneca", "merck"].map String.toList

/-- Modelled from the spec: the classify contract of section 4.2 - non-academic
iff no academic keyword matches the (case-insensitively compared) affiliation
and either a company keyword matches it or the email matches the
commercial-domain pattern. -/
def spec_classify (affiliation email : List Char) : Bool :=
  let aff := lowerL affiliation
  !(spec_academic_keywords.any (fun k => occursIn k aff)) &&
    ((spec_company_keywords.any (fun k => occursIn k aff)) || searchCompanyPat email)

/-- Modelled from the spec: the correspondingEmail contract of section 4.3 -
the first non-empty email of the given (non-academic) authors in order, empty
when none. -/
def spec_first_nonempty_email (authors : List Author) : List Char :=
  ((authors.map (fun a => a.email)).filter (fun e => !e.isEmpty)).headD []

/-- Helper for first-occurrence de-duplication: drops elements seen before. -/
def dedupAux : List (List Char) → List (List Char) → List (List Char)
  | [], _ => []
  | a :: t, seen => if a ∈ seen then dedupAux t seen else a :: dedupAux t (a :: seen)

/-- Modelled from the spec: the first-occurrence de-duplication order that
section 4.3 proposes for companyAffiliations. -/
def dedupFirstOcc (l : List (List Char)) : List (List Char) := dedupAux l []

/-- Concrete article for claim C3: its only author is academic for the
utils.py classifier (no company keyword, no email). -/
def c3_raw : RawArticle :=
  { pmid := some "12345".toList, title := some "T3".toList, pubYear := some "2020".toList,
    authors := [{ foreName := some "Jane".toList, lastName := some "Smith".toList,
                  affiliation := some "Harvard University".toList }] }

/-- Concrete article for the witness of claim C3: one non-academic author. -/
def c3w_raw : RawArticle :=
  { pmid := some "321".toList, title := some "T3w".toList, pubYear := some "2019".toList,
    authors := [{ foreName := some "Ada".toList, lastName := some "Lee".toList,
                  affiliation := some "Biotech Ltd".toList }] }

/-- Concrete article for claim C4: the ArticleTitle element is missing, the
author has no ForeName and no affiliation. -/
def c4_raw : RawArticle :=
  { pmid := some "11".toList, title := none, pubYear := none,
    authors := [{ foreName := none, lastName := some "Doe".toList, affiliation := none }] }

/-- Concrete article for claim C6: the first author is academic but their
affiliation contains the only text the backslash-demanding email pattern can
match; the second author is non-academic with no email. -/
def c6_raw : RawArticle :=
  { pmid := some "77".toList, title := some "T6".toList, pubYear := some "2021".toList,
    authors :=
      [{ foreName := some "Jane".toList, lastName := some "Smith".toList,
         affiliation := some "Harvard University, j@x\\.edu".toList },
       { foreName := some "John".toList, lastName := some "Doe".toList,
         affiliation := some "Pfizer".toList }] }

/-- Concrete article for the witness of claim C6. -/
def c6w_raw : RawArticle :=
  { pmid := some "99".toList, title := some "T9".toList, pubYear := some "2024".toList,
    authors := [{ foreName := some "John".toList, lastName := some "Doe".toList,
                  affiliation := some "Genentech Inc. john@genentech.com".toList }] }

/-- The row fetch_papers_build_row produces for c6w_raw. -/
def c6w_row : Row :=
  { pubmedId := "99".toList, title := "T9".toList, pubDate := "2024".toList,
    nonAcademicNames := "John Doe".toList,
    companyAffiliationsArg := ["Genentech Inc. john@genentech.com".toList],
    correspondingEmail := "john@genentech.com".toList }

/-- Concrete article for claim C8: two non-academic authors with two distinct
affiliations. -/
def c8_raw : RawArticle :=
  { pmid := some "88".toList, title := some "T8".toList, pubYear := some "2022".toList,
    authors :=
      [{ foreName := some "Zed".toList, lastName := some "Zeta".toList,
         affiliation := some "Zeta Pharma".toList },
       { foreName := some "Al".toList, lastName := some "Alpha".toList,
         affiliation := some "Alpha Biotech".toList }] }

/-- Concrete rows for the witness of claim C10: all six fields non-empty. -/
def c10_good_rows : List (List (List Char)) :=
  [["1".toList, "T".toList, "2020".toList, "A B".toList, "ACME Pharma".toList,
    "a@acme.com".toList]]

/-- Concrete row for the witness of claim C10: the email field is empty. -/
def c10_bad_row : List (List Char) :=
  ["2".toList, "U".toList, "2021".toList, "C D".toList, "Beta Biotech".toList, []]

/-- Characters obtained by adding 32 to an ASCII upper-case code keep that
value under Char round-tripping. -/
lemma toNat_ofNat_range (n : Nat) (h1 : 97 ≤ n) (h2 : n ≤ 122) :
    (Char.ofNat n).toNat = n := by
  interval_cases n <;> decide

/-- Lower-casing a character twice is the same as lower-casing it once. -/
lemma lowerChar_idem (c : Char) : lowerChar (lowerChar c) = lowerChar c := by
  unfold lowerChar
  by_cases h : 65 ≤ c.toNat ∧ c.toNat ≤ 90
  · rw [if_pos h]
    have hr : (Char.ofNat (c.toNat + 32)).toNat = c.toNat + 32 :=
      toNat_ofNat_range _ (by omega) (by omega)
    rw [if_neg (by rw [hr]; omega)]
  · rw [if_neg h, if_neg h]

/-- Lower-casing a string is idempotent. -/
lemma lowerL_idem (s : List Char) : lowerL (lowerL s) = lowerL s := by
  unfold lowerL
  rw [List.map_map]
  apply List.map_congr_left
  intro c _
  show lowerChar (lowerChar c) = lowerChar c
  exact lowerChar_idem c

/-- startsWithL decides initial-segment decomposition. -/
lemma startsWithL_iff (n h : List Char) :
    startsWithL n h = true ↔ ∃ v, h = n ++ v := by
  induction n generalizing h with
  | nil => simp [startsWithL]
  | cons a as ih =>
    cases h with
    | nil =>
      simp [startsWithL]
    | cons b bs =>
      simp only [startsWithL, Bool.and_eq_true, beq_iff_eq]
      constructor
      · rintro ⟨rfl, hs⟩
        obtain ⟨v, rfl⟩ := (ih bs).1 hs
        exact ⟨v, rfl⟩
      · rintro ⟨v, hv⟩
        injection hv with h1 h2
        subst h1
        exact ⟨rfl, (ih bs).2 ⟨v, h2⟩⟩

/-- occursIn decides substring decomposition. -/
lemma occursIn_iff (n h : List Char) :
    occursIn n h = true ↔ ∃ u v, h = u ++ n ++ v := by
  induction h with
  | nil =>
    simp only [occursIn, List.isEmpty_iff]
    constructor
    · rintro rfl; exact ⟨[], [], rfl⟩
    · rintro ⟨u, v, hv⟩
      have h2 := hv.symm
      rw [List.append_assoc] at h2
      rcases List.append_eq_nil.mp h2 with ⟨hu, h3⟩
      rcases List.append_eq_nil.mp h3 with ⟨hn, hvv⟩
      exact hn
  | cons c t ih =>
    simp only [occursIn, Bool.or_eq_true, startsWithL_iff, ih]
    constructor
    · rintro (⟨v, hv⟩ | ⟨u, v, rfl⟩)
      · exact ⟨[], v, hv⟩
      · exact ⟨c :: u, v, rfl⟩
    · rintro ⟨u, v, hv⟩
      cases u with
      | nil => exact Or.inl ⟨v, hv⟩
      | cons x xs =>
        simp only [List.cons_append] at hv
        injection hv with h1 h2
        subst h1
        exact Or.inr ⟨xs, v, h2⟩

/-- The loop of identify_non_academic_authors is the order-preserving filter
by its loop condition. -/
lemma identify_eq_filter (authors : List Author) :
    identify_non_academic_authors authors = authors.filter utils_is_non_academic := by
  induction authors with
  | nil => rfl
  | cons a t ih =>
    simp only [identify_non_academic_authors, List.filter_cons, ih]

/-- The first-truthy-email generator computes the first non-empty email. -/
lemma firstTruthyEmail_eq (l : List Author) :
    firstTruthyEmail l = spec_first_nonempty_email l := by
  induction l with
  | nil => rfl
  | cons a t ih =>
    by_cases h : a.email.isEmpty
    · simp [firstTruthyEmail, spec_first_nonempty_email, h, List.filter_cons, ih]
    · simp [firstTruthyEmail, spec_first_nonempty_email, h, List.filter_cons]

/-- The utils.py classifier reproduces the expected outcome of the repository
test test_identify_non_academic_authors in tests/test_utils.py. -/
lemma utils_identify_matches_repo_test :
    identify_non_academic_authors
        [⟨"Alice".toList, "Biotech Inc".toList, "alice@biotech.com".toList⟩,
         ⟨"Bob".toList, "Harvard University".toList, "bob@harvard.edu".toList⟩]
      = [⟨"Alice".toList, "Biotech Inc".toList, "alice@biotech.com".toList⟩] := by decide

/-- The fetcher.py classifier reproduces the expected outcome of the
repository test test_identify_non_academic_authors in tests/test_fetcher.py. -/
lemma fetcher_identify_matches_repo_test :
    fetcher_identify_non_academic_authors
        [⟨"John Doe".toList, "Genentech Inc.".toList, "john.doe@genentech.com".toList⟩,
         ⟨"Jane Smith".toList, "Harvard University".toList, "jane@harvard.edu".toList⟩]
      = [⟨"John Doe".toList, "Genentech Inc.".toList, "john.doe@genentech.com".toList⟩] := by
  decide

/-- Claim C1 (counterexample): on the affiliation "University Inc" with empty
email, the classifier the claim describes returns false (the academic keyword
university occurs), but the code classifies the author non-academic, because
the utils.py classifier checks no academic keywords at all; the empty-input
default academic is, however, as claimed. -/
theorem classify_no_academic_override :
    spec_classify "University Inc".toList [] = false ∧
    utils_is_non_academic ⟨"A".toList, "University Inc".toList, []⟩ = true ∧
    utils_is_non_academic ⟨"A".toList, [], []⟩ = false := by decide

/-- Claim C1 (amended): the utils.py classifier marks an author non-academic
iff a company keyword occurs case-sensitively in the affiliation or the
commercial-domain pattern matches the email - it consults no academic
keywords; an author with empty affiliation and empty email stays academic. -/
theorem utils_classifier_company_or_email :
    (∀ (authors : List Author) (a : Author),
      a ∈ identify_non_academic_authors authors ↔
        a ∈ authors ∧
          ((∃ kw ∈ company_keywords, ∃ u v, a.affiliation = u ++ kw ++ v) ∨
            searchCompanyPat a.email = true)) ∧
    identify_non_academic_authors [⟨"X".toList, [], []⟩] = [] := by
  constructor
  · intro authors a
    rw [identify_eq_filter, List.mem_filter]
    apply and_congr_right
    intro _
    unfold utils_is_non_academic
    rw [Bool.or_eq_true]
    apply or_congr
    · rw [List.any_eq_true]
      constructor
      · rintro ⟨kw, hkw, hocc⟩
        exact ⟨kw, hkw, (occursIn_iff _ _).1 hocc⟩
      · rintro ⟨kw, hkw, hocc⟩
        exact ⟨kw, hkw, (occursIn_iff _ _).2 hocc⟩
    · exact Iff.rfl
  · decide

/-- Claim C2 (counterexample): the affiliation "Harvard University Pharma"
contains an academic keyword and a company keyword simultaneously, yet the
utils.py classifier returns true, not false - it has no academic override. -/
theorem classify_academic_and_company_true :
    occursIn "University".toList "Harvard University Pharma".toList = true ∧
    occursIn "Pharma".toList "Harvard University Pharma".toList = true ∧
    utils_is_non_academic ⟨"B".toList, "Harvard University Pharma".toList, []⟩ = true := by
  decide

/-- Claim C2 (amended): in the one classifier that has academic keywords
(src/src/pubmed_fetcher/fetcher.py), an academic keyword in the affiliation
suppresses only the company-keyword signal: the classification then equals the
commercial-email-pattern test alone, so the email signal is not overridden. -/
theorem fetcher_academic_override_email_escape (a : Author)
    (h : fetcher_academic_keywords.any (fun k => occursIn k a.affiliation) = true) :
    fetcher_is_non_academic a = searchCompanyBroken a.email := by
  unfold fetcher_is_non_academic
  rw [h]
  simp

/-- Witness for the amended claim C2: the affiliation "Merck University" holds
an academic and a company keyword, yet the (backslash-carrying) email makes
the fetcher.py classifier return true. -/
theorem fetcher_academic_override_email_escape_witness :
    fetcher_is_non_academic
        ⟨"C".toList, "Merck University".toList, "a@b\\.com".toList⟩
      = searchCompanyBroken "a@b\\.com".toList ∧
    searchCompanyBroken "a@b\\.com".toList = true :=
  ⟨fetcher_academic_override_email_escape _ (by decide), by decide⟩

/-- Claim C3 (counterexample): article c3_raw has zero non-academic authors,
yet the fetch_papers.py pipeline, which the claim also covers, still produces
a row for it - that variant never filters. -/
theorem build_row_unconditional :
    identify_non_academic_authors (c3_raw.authors.map fp_normalize_author) = [] ∧
    (fetch_papers_build_row c3_raw).isOk = true := by decide

/-- Claim C3 (amended): the fetcher.py pipeline produces a row iff at least
one author is classified non-academic; the fetch_papers.py pipeline produces a
row for every article whose PMID and ArticleTitle elements are present,
regardless of the classification. -/
theorem build_row_filtering (r : RawArticle) :
    ((fetcher_build_row r).isSome ↔
      fetcher_identify_non_academic_authors (fetcher_normalize r).authors ≠ []) ∧
    (r.pmid.isSome = true → r.title.isSome = true →
      (fetch_papers_build_row r).isOk = true) := by
  constructor
  · unfold fetcher_build_row
    by_cases h : fetcher_identify_non_academic_authors (fetcher_normalize r).authors = []
    · simp [h]
    · have : (fetcher_identify_non_academic_authors (fetcher_normalize r).authors).isEmpty
          = false := by
        cases hl : fetcher_identify_non_academic_authors (fetcher_normalize r).authors with
        | nil => exact absurd hl h
        | cons x xs => rfl
      simp [this, h]
  · intro hp ht
    unfold fetch_papers_build_row fetch_papers_normalize
    cases hpm : r.pmid with
    | none => rw [hpm] at hp; simp at hp
    | some pmid =>
      cases htt : r.title with
      | none => rw [htt] at ht; simp at ht
      | some title => rfl

/-- Witness for the amended claim C3 at the concrete article c3w_raw. -/
theorem build_row_filtering_witness :
    ((fetcher_build_row c3w_raw).isSome ↔
      fetcher_identify_non_academic_authors (fetcher_normalize c3w_raw).authors ≠ []) ∧
    (fetch_papers_build_row c3w_raw).isOk = true :=
  ⟨(build_row_filtering c3w_raw).1, (build_row_filtering c3w_raw).2 (by decide) (by decide)⟩

/-- Claim C4: on the article c4_raw, whose ArticleTitle element is missing,
the fetch_papers.py normalizer raises AttributeError instead of defaulting,
while the fetcher.py normalizer is total and degrades the missing title, name
and affiliation to the sentinels N/A, Unknown and the empty string. -/
theorem normalize_totality_divergence :
    fetch_papers_normalize c4_raw = .error "AttributeError".toList ∧
    fetcher_normalize c4_raw =
      { pmid := "11".toList, title := "N/A".toList, pubDate := "N/A".toList,
        authors := [{ name := "Unknown".toList, affiliation := [], email := [] }] } :=
  ⟨rfl, rfl⟩

/-- Claim C5: the fetch_papers.py extractor returns exactly
john.doe@genentech.com on the claim string and the empty string when no email
occurs, but the fetcher.py extractor returns the empty string on the very same
string, and also on the input of its own unit test, because its raw-string
pattern demands a literal backslash before the extension. -/
theorem extract_email_divergence :
    extract_email "Dept of Oncology, Genentech Inc., john.doe@genentech.com".toList
      = "john.doe@genentech.com".toList ∧
    extract_email "No email here".toList = [] ∧
    fetcher_extract_email
        "Dept of Oncology, Genentech Inc., john.doe@genentech.com".toList = [] ∧
    fetcher_extract_email
        ("Department of Oncology, Genentech Inc., South San Francisco, CA, USA. "
          ++ "john.doe@genentech.com").toList = [] := by decide

/-- Claim C6 (counterexample): on the article c6_raw the produced row carries
a corresponding email taken from the academic first author's affiliation,
although the only non-academic author has an empty email - the claim demands
the empty string for such a row. -/
theorem corresponding_email_not_from_non_academic :
    (fetcher_build_row c6_raw).map (fun row => row.correspondingEmail)
      = some "j@x\\.edu".toList ∧
    (fetcher_identify_non_academic_authors (fetcher_normalize c6_raw).authors).map
      (fun a => a.email) = [[]] := by decide

/-- Claim C6 (amended): for every row the fetch_papers.py builder produces,
the corresponding email is the first non-empty email among the non-academic
authors in original order, empty when none; the fetcher.py builder instead
scans all affiliation texts of the article, academic authors included. -/
theorem corresponding_email_first_nonempty (r : RawArticle) (row : Row)
    (h : fetch_papers_build_row r = .ok row) :
    row.correspondingEmail =
      spec_first_nonempty_email
        (identify_non_academic_authors (r.authors.map fp_normalize_author)) := by
  unfold fetch_papers_build_row at h
  cases hn : fetch_papers_normalize r with
  | error e => rw [hn] at h; exact absurd h (by simp)
  | ok art =>
    rw [hn] at h
    have hart : art.authors = r.authors.map fp_normalize_author := by
      unfold fetch_papers_normalize at hn
      cases hp : r.pmid with
      | none => rw [hp] at hn; exact absurd hn (by simp)
      | some pmid =>
        rw [hp] at hn
        cases ht : r.title with
        | none => rw [ht] at hn; exact absurd hn (by simp)
        | some title =>
          rw [ht] at hn
          cases hn
          rfl
    simp only [Except.ok.injEq] at h
    rw [← h, ← hart]
    exact firstTruthyEmail_eq _

/-- Witness for the amended claim C6 at the concrete article c6w_raw. -/
theorem corresponding_email_first_nonempty_witness :
    c6w_row.correspondingEmail =
      spec_first_nonempty_email
        (identify_non_academic_authors (c6w_raw.authors.map fp_normalize_author)) :=
  corresponding_email_first_nonempty c6w_raw c6w_row (by rfl)

/-- Claim C7 (counterexample): the utils.py classification is not invariant
under lower-casing the affiliation: "Pharma" is classified non-academic but
its lower-casing "pharma" is not, since the keywords are matched
case-sensitively. -/
theorem classify_not_case_invariant :
    utils_is_non_academic ⟨"D".toList, "Pharma".toList, []⟩ = true ∧
    lowerL "Pharma".toList = "pharma".toList ∧
    utils_is_non_academic ⟨"D".toList, lowerL "Pharma".toList, []⟩ = false := by decide

/-- Claim C7 (amended): only the src/pubmed_fetcher/fetcher.py variant is
case-insensitive: it lower-cases the affiliation before matching, so its keep
decision is invariant under lower-casing the input; the utils.py and
src/src/pubmed_fetcher/fetcher.py classifiers are case-sensitive. -/
theorem filter_keeps_case_invariant (aff : List Char) :
    filter_keeps aff = filter_keeps (lowerL aff) := by
  unfold filter_keeps
  rw [lowerL_idem]

/-- Claim C8: for article c8_raw the list the code hands to the Python set
constructor is the two distinct affiliations; its first-occurrence
de-duplication is that same list, yet the reversed enumeration is an equally
valid iteration order of the same set and renders a different joined field, so
the program text does not determine the claimed first-occurrence order
(de-duplication itself does hold). -/
theorem company_affiliations_set_order :
    (fetch_papers_build_row c8_raw).map (fun row => row.companyAffiliationsArg)
      = .ok ["Zeta Pharma".toList, "Alpha Biotech".toList] ∧
    dedupFirstOcc ["Zeta Pharma".toList, "Alpha Biotech".toList]
      = ["Zeta Pharma".toList, "Alpha Biotech".toList] ∧
    List.Perm ["Zeta Pharma".toList, "Alpha Biotech".toList]
      ["Alpha Biotech".toList, "Zeta Pharma".toList] ∧
    List.intercalate ", ".toList ["Zeta Pharma".toList, "Alpha Biotech".toList]
      ≠ List.intercalate ", ".toList ["Alpha Biotech".toList, "Zeta Pharma".toList] := by
  refine ⟨rfl, by decide, List.Perm.swap _ _ _, by decide⟩

/-- Claim C9: on an empty report the fetch_papers.py save_to_csv evaluates
papers[0] and raises IndexError, while the fetcher.py variant returns
normally after printing a message. -/
theorem save_to_csv_empty_divergence :
    fp_save_to_csv [] = .error "IndexError".toList ∧
    fetcher_save_to_csv [] = .ok none :=
  ⟨rfl, rfl⟩

/-- Claim C10: validate_csv accepts a report only if the header equals the six
expected column names and every field of every row is non-empty; consequently
any report containing a row with an empty field - such as an empty
Corresponding Author Email, which the builder can produce - is rejected. -/
theorem validate_csv_sound (header : List (List Char)) (rows : List (List (List Char))) :
    (validate_csv header rows = true →
      header = expected_fields ∧ ∀ row ∈ rows, ∀ f ∈ row, f ≠ []) ∧
    (∀ row ∈ rows, [] ∈ row → validate_csv header rows = false) := by
  constructor
  · intro hv
    unfold validate_csv at hv
    by_cases hh : header = expected_fields
    · refine ⟨hh, ?_⟩
      rw [if_pos hh] at hv
      intro row hrow f hf
      have h1 := (List.all_eq_true.mp hv) row hrow
      have h2 := (List.all_eq_true.mp h1) f hf
      simp only [Bool.not_eq_true', List.isEmpty_iff] at h2
      simpa using h2
    · rw [if_neg hh] at hv
      exact absurd hv (by simp)
  · intro row hrow hf
    unfold validate_csv
    by_cases hh : header = expected_fields
    · rw [if_pos hh]
      have hrow_all : ¬(row.all fun f => !f.isEmpty) = true := by
        rw [List.all_eq_true]
        intro hall
        have h2 := hall [] hf
        simp at h2
      rw [List.all_eq_false]
      exact ⟨row, hrow, hrow_all⟩
    · rw [if_neg hh]

/-- Witness for claim C10: a fully populated report passes the soundness
direction, and a report whose row has an empty email field is rejected. -/
theorem validate_csv_sound_witness :
    (expected_fields = expected_fields ∧
      ∀ row ∈ c10_good_rows, ∀ f ∈ row, f ≠ []) ∧
    validate_csv expected_fields [c10_bad_row] = false :=
  ⟨(validate_csv_sound expected_fields c10_good_rows).1 (by decide),
   (validate_csv_sound expected_fields [c10_bad_row]).2 c10_bad_row (by decide) (by decide)⟩
